import Mathlib

/-!
# Generic hard disk header (`include/linux/genhd.h`)

A shallow embedding of the inline helpers of `genhd.h` and of the constants it
declares, followed by the properties proved about them.

Conventions of the embedding
* C pointers are indices into a kernel memory `Kmem`; the inline helpers
  dereference their arguments without any check, so every index is a valid object.
* `sector_t` and `unsigned long` values are natural numbers (64-bit patterns),
  `int` and `loff_t` results are integers; conversions wrap modulo `2 ^ 64`.
* An operation whose result C leaves undefined returns `none`.
-/

namespace Genhd

/-! ## Constants -/

/-- Width of `unsigned long` (the type of `gendisk.state`) on a 64-bit build. -/
def BITS_PER_LONG : Nat := 64

/-- Modelled from the spec: `SECTOR_SHIFT` is defined outside this header
(`linux/blk_types.h`); sectors are 512 bytes, so the shift is 9. -/
def SECTOR_SHIFT : Nat := 9

/-- Capability flag: `GENHD_FL_REMOVABLE = 1 << 0`. -/
def GENHD_FL_REMOVABLE : Nat := 1 <<< 0

/-- Capability flag: `GENHD_FL_HIDDEN = 1 << 1`. -/
def GENHD_FL_HIDDEN : Nat := 1 <<< 1

/-- Capability flag: `GENHD_FL_NO_PART = 1 << 2`. -/
def GENHD_FL_NO_PART : Nat := 1 <<< 2

/-- State bit number: `#define GD_NEED_PART_SCAN 0`. -/
def GD_NEED_PART_SCAN : Nat := 0

/-- State bit number: `#define GD_READ_ONLY 1`. -/
def GD_READ_ONLY : Nat := 1

/-- State bit number: `#define GD_DEAD 2`. -/
def GD_DEAD : Nat := 2

/-- State bit number: `#define GD_NATIVE_CAPACITY 3`. -/
def GD_NATIVE_CAPACITY : Nat := 3

/-- State bit number: `#define GD_SUPPRESS_PART_SCAN 5`. -/
def GD_SUPPRESS_PART_SCAN : Nat := 5

/-- The five state bit numbers declared next to `gendisk.state`. -/
def GD_STATE_BITS : List Nat :=
  [GD_NEED_PART_SCAN, GD_READ_ONLY, GD_DEAD, GD_NATIVE_CAPACITY, GD_SUPPRESS_PART_SCAN]

/-! ## Data model -/

/-- Modelled from the spec: `struct block_device` is declared in `linux/blk_types.h`;
only the fields read by `genhd.h` are kept.  `bd_disk` is a pointer to a `gendisk`. -/
structure block_device where
  bd_start_sect : Nat
  bd_nr_sectors : Nat
  bd_read_only : Bool
  bd_disk : Nat
deriving DecidableEq, Repr

/-- Modelled from the spec: `struct disk_events` is only forward-declared in the header;
the event state carries the block/unblock counter. -/
structure disk_events where
  block : Nat
deriving DecidableEq, Repr

/-- The fields of `struct gendisk` that carry data; `part0` and `ev` are pointers
(to a `block_device` and to a `disk_events`). -/
structure gendisk where
  major : Int
  first_minor : Int
  minors : Int
  events : Nat
  event_flags : Nat
  part0 : Nat
  flags : Nat
  state : Nat
  open_partitions : Nat
  ev : Nat
  diskseq : Nat
deriving DecidableEq, Repr

/-- Modelled from the spec: `struct super_block` is declared in `linux/fs.h`;
`s_bdev` is a pointer to a `block_device`. -/
structure super_block where
  s_blocksize_bits : Nat
  s_bdev : Nat
deriving DecidableEq, Repr

/-- Kernel memory: the objects the pointers of the header refer to, and the
holder relation kept by the holder-link code. -/
structure Kmem where
  bdev : Nat → block_device
  disk : Nat → gendisk
  sb : Nat → super_block
  evs : Nat → disk_events
  holders : List (Nat × Nat)

/-! ## C operators -/

/-- The C operator `a || b`, an `int` that is 0 or 1. -/
def c_lor (a b : Bool) : Int := if a || b then 1 else 0

/-- The cast `(loff_t)x` of a 64-bit pattern: two's complement reinterpretation. -/
def to_s64 (x : Nat) : Int :=
  if x % 2 ^ 64 < 2 ^ 63 then ((x % 2 ^ 64 : Nat) : Int)
  else ((x % 2 ^ 64 : Nat) : Int) - 2 ^ 64

/-- Left shift of a signed 64-bit value, wrapping in two's complement. -/
def c_shl_s64 (v : Int) (k : Nat) : Int :=
  to_s64 (Int.toNat ((v * 2 ^ k) % 2 ^ 64))

/-- Right shift of a `u64` by an `int` amount; a negative amount or one that
reaches the width of the type has no defined result. -/
def c_shr_u64 (x : Nat) (k : Int) : Option Nat :=
  if 0 ≤ k ∧ k < 64 then some (x >>> k.toNat) else none

/-- Modelled from the spec: `test_bit` comes from `linux/bitops.h`;
it yields `1UL & (word >> nr)` for a bit number below the word width. -/
def test_bit (nr : Nat) (addr : Nat) : Nat := 1 &&& (addr >>> nr)

/-- Modelled from the spec: `set_bit` comes from `linux/bitops.h`:
`word |= 1UL << nr`, within the word width. -/
def set_bit (nr : Nat) (addr : Nat) : Nat := (addr ||| (1 <<< nr)) % 2 ^ BITS_PER_LONG

/-- Modelled from the spec: `clear_bit` comes from `linux/bitops.h`:
`word &= ~(1UL << nr)`, the complement taken within the word width. -/
def clear_bit (nr : Nat) (addr : Nat) : Nat :=
  addr &&& (2 ^ BITS_PER_LONG - 1 - (1 <<< nr) % 2 ^ BITS_PER_LONG)

/-! ## Inline helpers of the header -/

/-- Read-only status of a disk: `disk->part0->bd_read_only || test_bit(GD_READ_ONLY, &disk->state)`. -/
def get_disk_ro (m : Kmem) (disk : Nat) : Int :=
  c_lor (m.bdev (m.disk disk).part0).bd_read_only
    (test_bit GD_READ_ONLY (m.disk disk).state != 0)

/-- Read-only status of a block device: `bdev->bd_read_only || get_disk_ro(bdev->bd_disk)`. -/
def bdev_read_only (m : Kmem) (bdev : Nat) : Int :=
  c_lor (m.bdev bdev).bd_read_only (get_disk_ro m (m.bdev bdev).bd_disk != 0)

/-- Start sector of a block device: `bdev->bd_start_sect`. -/
def get_start_sect (m : Kmem) (bdev : Nat) : Nat := (m.bdev bdev).bd_start_sect

/-- Sector count of a block device: `bdev->bd_nr_sectors`. -/
def bdev_nr_sectors (m : Kmem) (bdev : Nat) : Nat := (m.bdev bdev).bd_nr_sectors

/-- Size in bytes: `(loff_t)bdev_nr_sectors(bdev) << SECTOR_SHIFT`. -/
def bdev_nr_bytes (m : Kmem) (bdev : Nat) : Int :=
  c_shl_s64 (to_s64 (bdev_nr_sectors m bdev)) SECTOR_SHIFT

/-- Capacity of a disk: `bdev_nr_sectors(disk->part0)`. -/
def get_capacity (m : Kmem) (disk : Nat) : Nat := bdev_nr_sectors m (m.disk disk).part0

/-- Number of filesystem blocks:
`bdev_nr_sectors(sb->s_bdev) >> (sb->s_blocksize_bits - SECTOR_SHIFT)`. -/
def sb_bdev_nr_blocks (m : Kmem) (sb : Nat) : Option Nat :=
  c_shr_u64 (bdev_nr_sectors m (m.sb sb).s_bdev)
    (((m.sb sb).s_blocksize_bits : Int) - (SECTOR_SHIFT : Int))

/-! ## State word and capability flags -/

/-- The statement `set_bit(nr, &disk->state)`. -/
def disk_set_state_bit (m : Kmem) (disk nr : Nat) : Kmem :=
  { m with disk := Function.update m.disk disk
              ({ m.disk disk with state := set_bit nr (m.disk disk).state }) }

/-- The statement `clear_bit(nr, &disk->state)`. -/
def disk_clear_state_bit (m : Kmem) (disk nr : Nat) : Kmem :=
  { m with disk := Function.update m.disk disk
              ({ m.disk disk with state := clear_bit nr (m.disk disk).state }) }

/-- The statement `flags |= fl` on the 32-bit pattern of `int flags`. -/
def genhd_fl_set (flags fl : Nat) : Nat := (flags ||| fl) % 2 ^ 32

/-- The statement `flags &= ~fl` on the 32-bit pattern of `int flags`. -/
def genhd_fl_clear (flags fl : Nat) : Nat := flags &&& (2 ^ 32 - 1 - fl % 2 ^ 32)

/-- The test `flags & fl`, as a truth value. -/
def genhd_fl_test (flags fl : Nat) : Bool := flags &&& fl != 0

/-- The flags word of a disk whose capabilities are exactly the chosen ones,
built by setting each chosen flag on an empty word. -/
def genhd_fl_of (removable hidden no_part : Bool) : Nat :=
  let f0 : Nat := 0
  let f1 := if removable then genhd_fl_set f0 GENHD_FL_REMOVABLE else f0
  let f2 := if hidden then genhd_fl_set f1 GENHD_FL_HIDDEN else f1
  if no_part then genhd_fl_set f2 GENHD_FL_NO_PART else f2

/-- The three capability flags of the `GENHD_FL_*` enumeration. -/
def GENHD_FL_ALL : List Nat := [GENHD_FL_REMOVABLE, GENHD_FL_HIDDEN, GENHD_FL_NO_PART]

/-! ## Operations declared by the header, defined elsewhere -/

/-- Modelled from the spec: the body of `set_capacity` (block/genhd.c) is missing; the
declaration returns `void`, and the operation updates the size of partition 0. -/
def set_capacity (m : Kmem) (disk : Nat) (size : Nat) : Kmem :=
  { m with bdev := Function.update m.bdev (m.disk disk).part0
              ({ m.bdev (m.disk disk).part0 with bd_nr_sectors := size }) }

/-- Modelled from the spec: the body of `set_capacity_and_notify` (block/genhd.c) is
missing; the declaration returns `bool`: the size of partition 0 is updated and the result
says whether the value differed from the prior one. -/
def set_capacity_and_notify (m : Kmem) (disk : Nat) (size : Nat) : Bool × Kmem :=
  (decide (size ≠ get_capacity m disk), set_capacity m disk size)

/-- Modelled from the spec: the body of `disk_block_events` (block/disk-events.c) is
missing; a block scope raises the block counter of the disk's event state. -/
def disk_block_events (m : Kmem) (disk : Nat) : Kmem :=
  { m with evs := Function.update m.evs (m.disk disk).ev
              ({ block := (m.evs (m.disk disk).ev).block + 1 }) }

/-- Modelled from the spec: the body of `disk_unblock_events` (block/disk-events.c) is
missing; leaving a block scope lowers the block counter (which never goes below zero). -/
def disk_unblock_events (m : Kmem) (disk : Nat) : Kmem :=
  { m with evs := Function.update m.evs (m.disk disk).ev
              ({ block := (m.evs (m.disk disk).ev).block - 1 }) }

/-- Current nesting depth of event blocking on a disk. -/
def disk_events_depth (m : Kmem) (disk : Nat) : Nat := (m.evs (m.disk disk).ev).block

/-- Modelled from the spec: event polling of a disk is suppressed while its block
counter is not zero, and runs again once the counter is back at zero. -/
def disk_events_blocked (m : Kmem) (disk : Nat) : Bool :=
  decide (disk_events_depth m disk ≠ 0)

/-- Modelled from the spec: with CONFIG_BLOCK_HOLDER_DEPRECATED the body of
`bd_link_disk_holder` (block/holder.c) is missing; linking records the pair, and
linking a recorded pair again is a successful no-op. -/
def bd_link_disk_holder_deprecated (m : Kmem) (bdev disk : Nat) : Int × Kmem :=
  if (bdev, disk) ∈ m.holders then (0, m)
  else (0, { m with holders := (bdev, disk) :: m.holders })

/-- Linking a holder: the variant selected by CONFIG_BLOCK_HOLDER_DEPRECATED; without
the option the header defines it inline as `return 0;`. -/
def bd_link_disk_holder (config_block_holder_deprecated : Bool) (m : Kmem)
    (bdev disk : Nat) : Int × Kmem :=
  if config_block_holder_deprecated then bd_link_disk_holder_deprecated m bdev disk
  else (0, m)

/-! ## Concrete memories -/

/-- A block device of `n` sectors, read-only flag `ro`, owned by disk 0. -/
def mk_bdev (n : Nat) (ro : Bool) : block_device :=
  { bd_start_sect := 0, bd_nr_sectors := n, bd_read_only := ro, bd_disk := 0 }

/-- A disk with the given state word and flags whose `part0` and `ev` are object 0. -/
def mk_disk (state flags : Nat) : gendisk :=
  { major := 8, first_minor := 0, minors := 16, events := 0, event_flags := 0,
    part0 := 0, flags := flags, state := state, open_partitions := 0, ev := 0, diskseq := 1 }

/-- A memory in which every block device is `b`, every disk is `d`, every
superblock has block size `2 ^ bits` and every event state has depth `blk`. -/
def mk_mem (b : block_device) (d : gendisk) (bits blk : Nat) : Kmem :=
  { bdev := fun _ => b, disk := fun _ => d,
    sb := fun _ => { s_blocksize_bits := bits, s_bdev := 0 },
    evs := fun _ => { block := blk }, holders := [] }

/-- A disk whose state word is 0 while its whole-disk device is flagged read-only. -/
def mem_part0_ro : Kmem := mk_mem (mk_bdev 2048 true) (mk_disk 0 0) 12 0

/-- A writable disk of 2048 sectors with 4096-byte filesystem blocks. -/
def mem_plain : Kmem := mk_mem (mk_bdev 2048 false) (mk_disk 0 0) 12 0

/-- The same disk under a superblock with 256-byte blocks (block size bits 8). -/
def mem_small_block : Kmem := mk_mem (mk_bdev 2048 false) (mk_disk 0 0) 8 0

/-- A device of `2 ^ 54` sectors, the first size whose byte count leaves `loff_t`. -/
def mem_huge : Kmem := mk_mem (mk_bdev (2 ^ 54) false) (mk_disk 0 0) 12 0

/-! ## Properties -/

theorem c_lor_ne_zero (a b : Bool) : c_lor a b ≠ 0 ↔ a = true ∨ b = true := by
  cases a <;> cases b <;> simp [c_lor]

theorem c_lor_eq_zero (a b : Bool) : c_lor a b = 0 ↔ a = false ∧ b = false := by
  cases a <;> cases b <;> simp [c_lor]

theorem get_disk_ro_ne_zero (m : Kmem) (disk : Nat) :
    get_disk_ro m disk ≠ 0 ↔
      (m.bdev (m.disk disk).part0).bd_read_only = true ∨
        test_bit GD_READ_ONLY (m.disk disk).state ≠ 0 := by
  unfold get_disk_ro
  rw [c_lor_ne_zero]
  simp

/-- C1 (as stated, refuted): a disk whose state word has GD_READ_ONLY clear is still
reported read-only by get_disk_ro when its part0 carries bd_read_only. -/
theorem C1_counterexample :
    test_bit GD_READ_ONLY (mem_part0_ro.disk 0).state = 0 ∧ get_disk_ro mem_part0_ro 0 ≠ 0 := by
  decide

/-- C1 (amended): get_disk_ro is nonzero exactly when GD_READ_ONLY is set in disk->state
or disk->part0->bd_read_only is set; so it is nonzero when the bit is set, and it is zero
when the bit is clear and part0 is not flagged read-only. -/
theorem C1_get_disk_ro (m : Kmem) (disk : Nat) :
    (get_disk_ro m disk ≠ 0 ↔
      test_bit GD_READ_ONLY (m.disk disk).state ≠ 0 ∨
        (m.bdev (m.disk disk).part0).bd_read_only = true) ∧
    (test_bit GD_READ_ONLY (m.disk disk).state ≠ 0 → get_disk_ro m disk ≠ 0) ∧
    (test_bit GD_READ_ONLY (m.disk disk).state = 0 →
      (m.bdev (m.disk disk).part0).bd_read_only = false → get_disk_ro m disk = 0) := by
  refine ⟨?_, ?_, ?_⟩
  · rw [get_disk_ro_ne_zero]; exact Or.comm
  · intro h; exact (get_disk_ro_ne_zero m disk).2 (Or.inr h)
  · intro h0 hro
    unfold get_disk_ro
    rw [c_lor_eq_zero]
    simp [h0, hro]

/-- C1 witness: on the plain writable disk the bit and the part0 flag are clear and the
status is 0. -/
theorem C1_get_disk_ro_witness :
    test_bit GD_READ_ONLY (mem_plain.disk 0).state = 0 ∧
      (mem_plain.bdev (mem_plain.disk 0).part0).bd_read_only = false ∧
      get_disk_ro mem_plain 0 = 0 :=
  ⟨by decide, by decide, (C1_get_disk_ro mem_plain 0).2.2 (by decide) (by decide)⟩

/-- C2: get_capacity(disk) is the sector count stored in the disk's partition 0, that is
bdev_nr_sectors(disk->part0). -/
theorem C2_get_capacity (m : Kmem) (disk : Nat) :
    get_capacity m disk = (m.bdev (m.disk disk).part0).bd_nr_sectors ∧
    get_capacity m disk = bdev_nr_sectors m (m.disk disk).part0 :=
  ⟨rfl, rfl⟩

/-- C6: bdev_read_only(bdev) is nonzero iff bdev's bd_read_only is set or
get_disk_ro(bdev->bd_disk) is nonzero; a device of a read-only disk is read-only; and for
the whole-disk device the result equals get_disk_ro(disk). -/
theorem C6_bdev_read_only (m : Kmem) (bdev : Nat) :
    (bdev_read_only m bdev ≠ 0 ↔
      (m.bdev bdev).bd_read_only = true ∨ get_disk_ro m (m.bdev bdev).bd_disk ≠ 0) ∧
    (get_disk_ro m (m.bdev bdev).bd_disk ≠ 0 → bdev_read_only m bdev ≠ 0) ∧
    (∀ disk : Nat, bdev = (m.disk disk).part0 → (m.bdev bdev).bd_disk = disk →
      bdev_read_only m bdev = get_disk_ro m disk) := by
  have key : bdev_read_only m bdev ≠ 0 ↔
      (m.bdev bdev).bd_read_only = true ∨ get_disk_ro m (m.bdev bdev).bd_disk ≠ 0 := by
    unfold bdev_read_only
    rw [c_lor_ne_zero]
    simp
  refine ⟨key, fun h => key.2 (Or.inr h), ?_⟩
  intro disk hp hd
  subst hp
  unfold bdev_read_only
  rw [hd]
  unfold get_disk_ro c_lor
  cases (m.bdev (m.disk disk).part0).bd_read_only <;>
    cases (test_bit GD_READ_ONLY (m.disk disk).state != 0) <;> simp

/-- C6 witness: the whole-disk device of the disk with a read-only part0. -/
theorem C6_bdev_read_only_witness :
    (0 : Nat) = (mem_part0_ro.disk 0).part0 ∧ (mem_part0_ro.bdev 0).bd_disk = 0 ∧
      bdev_read_only mem_part0_ro 0 = get_disk_ro mem_part0_ro 0 :=
  ⟨by decide, by decide, (C6_bdev_read_only mem_part0_ro 0).2.2 0 (by decide) (by decide)⟩

/-! ### Holder links -/

/-- C3: linking the same (block device, disk) pair twice returns 0 both times, and the
second call leaves the memory exactly as the first call left it, whichever variant of
bd_link_disk_holder the configuration selects. -/
theorem C3_bd_link_disk_holder_idempotent (config_block_holder_deprecated : Bool)
    (m : Kmem) (bdev disk : Nat) :
    (bd_link_disk_holder config_block_holder_deprecated m bdev disk).1 = 0 ∧
    (bd_link_disk_holder config_block_holder_deprecated
      (bd_link_disk_holder config_block_holder_deprecated m bdev disk).2 bdev disk).1 = 0 ∧
    (bd_link_disk_holder config_block_holder_deprecated
      (bd_link_disk_holder config_block_holder_deprecated m bdev disk).2 bdev disk).2 =
      (bd_link_disk_holder config_block_holder_deprecated m bdev disk).2 := by
  cases config_block_holder_deprecated
  · simp [bd_link_disk_holder]
  · by_cases h : (bdev, disk) ∈ m.holders
    · simp [bd_link_disk_holder, bd_link_disk_holder_deprecated, h]
    · simp [bd_link_disk_holder, bd_link_disk_holder_deprecated, h]

/-! ### Event blocking -/

theorem disk_block_events_depth (m : Kmem) (disk : Nat) :
    disk_events_depth (disk_block_events m disk) disk = disk_events_depth m disk + 1 := by
  simp [disk_events_depth, disk_block_events]

theorem disk_unblock_events_depth (m : Kmem) (disk : Nat) :
    disk_events_depth (disk_unblock_events m disk) disk = disk_events_depth m disk - 1 := by
  simp [disk_events_depth, disk_unblock_events]

theorem iterate_block_depth (disk : Nat) (n : Nat) (m : Kmem) :
    disk_events_depth ((fun s => disk_block_events s disk)^[n] m) disk =
      disk_events_depth m disk + n := by
  induction n with
  | zero => simp
  | succ n ih =>
    rw [Function.iterate_succ_apply', disk_block_events_depth, ih]
    omega

theorem iterate_unblock_depth (disk : Nat) (n : Nat) (m : Kmem) :
    disk_events_depth ((fun s => disk_unblock_events s disk)^[n] m) disk =
      disk_events_depth m disk - n := by
  induction n with
  | zero => simp
  | succ n ih =>
    rw [Function.iterate_succ_apply', disk_unblock_events_depth, ih]
    omega

/-- C4: after N calls of disk_block_events (any N, so every N >= 1), polling of the disk
stays suppressed after any k < N calls of disk_unblock_events; the N-th call brings the
block depth back to its value before the blocks, so polling that was running before them
resumes exactly then. -/
theorem C4_block_events_nest (m : Kmem) (disk N : Nat) :
    (∀ k, k < N →
      disk_events_blocked ((fun s => disk_unblock_events s disk)^[k]
        ((fun s => disk_block_events s disk)^[N] m)) disk = true) ∧
    disk_events_depth ((fun s => disk_unblock_events s disk)^[N]
        ((fun s => disk_block_events s disk)^[N] m)) disk = disk_events_depth m disk ∧
    (disk_events_blocked m disk = false →
      disk_events_blocked ((fun s => disk_unblock_events s disk)^[N]
        ((fun s => disk_block_events s disk)^[N] m)) disk = false) := by
  have hdepth : ∀ k, disk_events_depth ((fun s => disk_unblock_events s disk)^[k]
        ((fun s => disk_block_events s disk)^[N] m)) disk =
        disk_events_depth m disk + N - k := by
    intro k
    rw [iterate_unblock_depth, iterate_block_depth]
  refine ⟨?_, ?_, ?_⟩
  · intro k hk
    have := hdepth k
    simp only [disk_events_blocked, decide_eq_true_eq]
    omega
  · rw [hdepth N]; omega
  · intro h0
    have := hdepth N
    simp only [disk_events_blocked, decide_eq_false_iff_not, not_not] at h0 ⊢
    omega

/-- C4 witness: depth 3 on a disk with running polling; two unblocks leave polling
suppressed, the third resumes it. -/
theorem C4_block_events_nest_witness :
    2 < 3 ∧ disk_events_blocked mem_plain 0 = false ∧
    disk_events_blocked ((fun s => disk_unblock_events s 0)^[2]
      ((fun s => disk_block_events s 0)^[3] mem_plain)) 0 = true ∧
    disk_events_blocked ((fun s => disk_unblock_events s 0)^[3]
      ((fun s => disk_block_events s 0)^[3] mem_plain)) 0 = false :=
  ⟨by decide, by decide,
    (C4_block_events_nest mem_plain 0 3).1 2 (by decide),
    (C4_block_events_nest mem_plain 0 3).2.2 (by decide)⟩

/-! ### Capacity -/

/-- C5: after set_capacity(disk, s) (and after set_capacity_and_notify(disk, s))
get_capacity(disk) returns s, and the boolean returned by the notifying variant is true
iff s differs from the capacity before the call. -/
theorem C5_set_capacity (m : Kmem) (disk s : Nat) :
    get_capacity (set_capacity m disk s) disk = s ∧
    get_capacity (set_capacity_and_notify m disk s).2 disk = s ∧
    ((set_capacity_and_notify m disk s).1 = true ↔ s ≠ get_capacity m disk) := by
  refine ⟨?_, ?_, ?_⟩
  · simp [get_capacity, bdev_nr_sectors, set_capacity]
  · simp [set_capacity_and_notify, get_capacity, bdev_nr_sectors, set_capacity]
  · simp [set_capacity_and_notify]

/-! ### Bit operations -/

theorem test_bit_eq_testBit (nr w : Nat) : test_bit nr w = (Nat.testBit w nr).toNat := by
  unfold test_bit
  rw [Nat.one_and_eq_mod_two, Nat.shiftRight_eq_div_pow, Nat.toNat_testBit]

theorem testBit_set_of_ne (W nr c w : Nat) (hc : c < W) (hne : c ≠ nr) :
    Nat.testBit ((w ||| (1 <<< nr)) % 2 ^ W) c = Nat.testBit w c := by
  rw [Nat.testBit_mod_two_pow, Nat.testBit_or, Nat.shiftLeft_eq, Nat.one_mul,
    Nat.testBit_two_pow_of_ne (Ne.symm hne)]
  simp [hc]

theorem testBit_clear_of_ne (W nr c w : Nat) (hc : c < W) (hnr : nr < W) (hne : c ≠ nr) :
    Nat.testBit (w &&& (2 ^ W - 1 - (1 <<< nr) % 2 ^ W)) c = Nat.testBit w c := by
  have hlt : 2 ^ nr < 2 ^ W := Nat.pow_lt_pow_right (by decide) hnr
  have hsub : 2 ^ W - 1 - (1 <<< nr) % 2 ^ W = 2 ^ W - (2 ^ nr + 1) := by
    rw [Nat.shiftLeft_eq, Nat.one_mul, Nat.mod_eq_of_lt hlt]
    omega
  rw [Nat.testBit_and, hsub, Nat.testBit_two_pow_sub_succ hlt,
    Nat.testBit_two_pow_of_ne (Ne.symm hne)]
  simp [hc]

theorem test_bit_set_bit_of_ne (nr c w : Nat) (hc : c < BITS_PER_LONG) (hne : c ≠ nr) :
    test_bit c (set_bit nr w) = test_bit c w := by
  rw [test_bit_eq_testBit, test_bit_eq_testBit, set_bit, testBit_set_of_ne _ _ _ _ hc hne]

theorem test_bit_clear_bit_of_ne (nr c w : Nat) (hc : c < BITS_PER_LONG)
    (hnr : nr < BITS_PER_LONG) (hne : c ≠ nr) :
    test_bit c (clear_bit nr w) = test_bit c w := by
  rw [test_bit_eq_testBit, test_bit_eq_testBit, clear_bit,
    testBit_clear_of_ne _ _ _ _ hc hnr hne]

theorem GD_STATE_BITS_lt (b : Nat) (hb : b ∈ GD_STATE_BITS) : b < BITS_PER_LONG := by
  simp only [GD_STATE_BITS, List.mem_cons, List.mem_singleton, List.not_mem_nil, or_false] at hb
  rcases hb with h | h | h | h | h <;> subst h <;> decide

theorem get_disk_ro_congr (m m1 : Kmem) (disk : Nat) (hb : m1.bdev = m.bdev)
    (hp : (m1.disk disk).part0 = (m.disk disk).part0)
    (hs : test_bit GD_READ_ONLY (m1.disk disk).state = test_bit GD_READ_ONLY (m.disk disk).state) :
    get_disk_ro m1 disk = get_disk_ro m disk := by
  unfold get_disk_ro
  rw [hb, hp, hs]

theorem disk_set_state_bit_disk (m : Kmem) (disk nr d : Nat) :
    (disk_set_state_bit m disk nr).disk d =
      if d = disk then { m.disk disk with state := set_bit nr (m.disk disk).state }
      else m.disk d := by
  by_cases h : d = disk
  · subst h; simp [disk_set_state_bit]
  · simp [disk_set_state_bit, Function.update_noteq h, h]

theorem disk_clear_state_bit_disk (m : Kmem) (disk nr d : Nat) :
    (disk_clear_state_bit m disk nr).disk d =
      if d = disk then { m.disk disk with state := clear_bit nr (m.disk disk).state }
      else m.disk d := by
  by_cases h : d = disk
  · subst h; simp [disk_clear_state_bit]
  · simp [disk_clear_state_bit, Function.update_noteq h, h]

/-- C7: the five state bit numbers are pairwise distinct and each lies below the width of
the state word (64 bits here, and also below 32); and setting or clearing a state bit other than GD_READ_ONLY on a disk
leaves get_disk_ro (of every disk) and the value of every other state bit unchanged. -/
theorem C7_state_bits_frame (m : Kmem) (disk nr : Nat) (hnr : nr ∈ GD_STATE_BITS)
    (hro : nr ≠ GD_READ_ONLY) :
    GD_STATE_BITS.Nodup ∧ (∀ b ∈ GD_STATE_BITS, b < BITS_PER_LONG ∧ b < 32) ∧
    (∀ d, get_disk_ro (disk_set_state_bit m disk nr) d = get_disk_ro m d) ∧
    (∀ d, get_disk_ro (disk_clear_state_bit m disk nr) d = get_disk_ro m d) ∧
    (∀ c ∈ GD_STATE_BITS, c ≠ nr →
      test_bit c ((disk_set_state_bit m disk nr).disk disk).state =
        test_bit c (m.disk disk).state ∧
      test_bit c ((disk_clear_state_bit m disk nr).disk disk).state =
        test_bit c (m.disk disk).state) := by
  have hlt := GD_STATE_BITS_lt nr hnr
  have hro1 : GD_READ_ONLY < BITS_PER_LONG := by decide
  refine ⟨by decide, by decide, ?_, ?_, ?_⟩
  · intro d
    refine get_disk_ro_congr m (disk_set_state_bit m disk nr) d rfl ?_ ?_
    · rw [disk_set_state_bit_disk]; split <;> simp_all
    · rw [disk_set_state_bit_disk]
      split
      · next h => subst h; exact test_bit_set_bit_of_ne _ _ _ hro1 (Ne.symm hro)
      · rfl
  · intro d
    refine get_disk_ro_congr m (disk_clear_state_bit m disk nr) d rfl ?_ ?_
    · rw [disk_clear_state_bit_disk]; split <;> simp_all
    · rw [disk_clear_state_bit_disk]
      split
      · next h => subst h; exact test_bit_clear_bit_of_ne _ _ _ hro1 hlt (Ne.symm hro)
      · rfl
  · intro c hc hne
    have hclt := GD_STATE_BITS_lt c hc
    rw [disk_set_state_bit_disk, disk_clear_state_bit_disk]
    simp only [if_true]
    exact ⟨test_bit_set_bit_of_ne _ _ _ hclt hne, test_bit_clear_bit_of_ne _ _ _ hclt hlt hne⟩

/-- C7 witness: marking the read-only-flagged disk dead keeps its read-only status. -/
theorem C7_state_bits_frame_witness :
    GD_DEAD ∈ GD_STATE_BITS ∧ GD_DEAD ≠ GD_READ_ONLY ∧
    get_disk_ro (disk_set_state_bit mem_part0_ro 0 GD_DEAD) 0 = get_disk_ro mem_part0_ro 0 :=
  ⟨by decide, by decide,
    (C7_state_bits_frame mem_part0_ro 0 GD_DEAD (by decide) (by decide)).2.2.1 0⟩

/-! ### Sizes in blocks and bytes -/

theorem c_shr_u64_of_le (x b : Nat) (h9 : 9 ≤ b) (h73 : b < 73) :
    c_shr_u64 x ((b : Int) - (SECTOR_SHIFT : Int)) = some (x / 2 ^ (b - 9)) := by
  have hk : ((b : Int) - (SECTOR_SHIFT : Int)) = ((b - 9 : Nat) : Int) := by
    simp only [SECTOR_SHIFT]; omega
  rw [hk]
  unfold c_shr_u64
  rw [if_pos ⟨by omega, by omega⟩, Int.toNat_ofNat, Nat.shiftRight_eq_div_pow]

theorem c_shr_u64_of_lt (x b : Nat) (h9 : b < 9) :
    c_shr_u64 x ((b : Int) - (SECTOR_SHIFT : Int)) = none := by
  unfold c_shr_u64
  rw [if_neg]
  simp only [SECTOR_SHIFT]
  omega

theorem div_pow_sub_nine (n b : Nat) (h9 : 9 ≤ b) :
    n / 2 ^ (b - 9) = 512 * n / 2 ^ b := by
  have hb : 2 ^ b = 512 * 2 ^ (b - 9) := by
    have : b = 9 + (b - 9) := by omega
    conv_lhs => rw [this, Nat.pow_add]
  rw [hb, Nat.mul_div_mul_left _ _ (by decide : 0 < 512)]

/-- C8: for 9 <= s_blocksize_bits < 73, sb_bdev_nr_blocks(sb) is defined and equals
floor(n / 2^(b-9)) = floor(512*n / 2^b) for n = bdev_nr_sectors(sb->s_bdev), so that
blocks * 2^b <= 512*n < (blocks + 1) * 2^b; for b < 9 the shift amount is negative and
no result is defined. -/
theorem C8_sb_bdev_nr_blocks (m : Kmem) (sb : Nat) :
    (9 ≤ (m.sb sb).s_blocksize_bits → (m.sb sb).s_blocksize_bits < 73 →
      (0 ≤ ((m.sb sb).s_blocksize_bits : Int) - (SECTOR_SHIFT : Int) ∧
        ((m.sb sb).s_blocksize_bits : Int) - (SECTOR_SHIFT : Int) < 64) ∧
      sb_bdev_nr_blocks m sb =
        some (bdev_nr_sectors m (m.sb sb).s_bdev / 2 ^ ((m.sb sb).s_blocksize_bits - 9)) ∧
      bdev_nr_sectors m (m.sb sb).s_bdev / 2 ^ ((m.sb sb).s_blocksize_bits - 9) =
        512 * bdev_nr_sectors m (m.sb sb).s_bdev / 2 ^ (m.sb sb).s_blocksize_bits ∧
      bdev_nr_sectors m (m.sb sb).s_bdev / 2 ^ ((m.sb sb).s_blocksize_bits - 9) *
        2 ^ (m.sb sb).s_blocksize_bits ≤ 512 * bdev_nr_sectors m (m.sb sb).s_bdev ∧
      512 * bdev_nr_sectors m (m.sb sb).s_bdev <
        (bdev_nr_sectors m (m.sb sb).s_bdev / 2 ^ ((m.sb sb).s_blocksize_bits - 9) + 1) *
          2 ^ (m.sb sb).s_blocksize_bits) ∧
    ((m.sb sb).s_blocksize_bits < 9 →
      ((m.sb sb).s_blocksize_bits : Int) - (SECTOR_SHIFT : Int) < 0 ∧
      sb_bdev_nr_blocks m sb = none) := by
  generalize hn : bdev_nr_sectors m (m.sb sb).s_bdev = n
  generalize hb : (m.sb sb).s_blocksize_bits = b
  refine ⟨?_, ?_⟩
  · intro h9 h73
    have hp : 0 < 2 ^ b := Nat.two_pow_pos b
    refine ⟨by simp only [SECTOR_SHIFT]; omega, ?_, div_pow_sub_nine n b h9, ?_, ?_⟩
    · unfold sb_bdev_nr_blocks
      rw [hn, hb]
      exact c_shr_u64_of_le n b h9 h73
    · rw [div_pow_sub_nine n b h9]
      exact Nat.div_mul_le_self _ _
    · rw [div_pow_sub_nine n b h9]
      have hdm := Nat.div_add_mod (512 * n) (2 ^ b)
      have hml := Nat.mod_lt (512 * n) hp
      have hcomm : 2 ^ b * (512 * n / 2 ^ b) = 512 * n / 2 ^ b * 2 ^ b := Nat.mul_comm _ _
      rw [Nat.add_mul, Nat.one_mul]
      omega
  · intro h9
    refine ⟨by simp only [SECTOR_SHIFT]; omega, ?_⟩
    unfold sb_bdev_nr_blocks
    rw [hn, hb]
    exact c_shr_u64_of_lt n b h9

/-- C8 witness: 2048 sectors under 4096-byte blocks give 256 blocks; under 256-byte
blocks the shift amount is negative. -/
theorem C8_sb_bdev_nr_blocks_witness :
    (9 ≤ (mem_plain.sb 0).s_blocksize_bits ∧ (mem_plain.sb 0).s_blocksize_bits < 73 ∧
      sb_bdev_nr_blocks mem_plain 0 = some (2048 / 2 ^ (12 - 9))) ∧
    ((mem_small_block.sb 0).s_blocksize_bits < 9 ∧ sb_bdev_nr_blocks mem_small_block 0 = none) :=
  ⟨⟨by decide, by decide, ((C8_sb_bdev_nr_blocks mem_plain 0).1 (by decide) (by decide)).2.1⟩,
    ⟨by decide, ((C8_sb_bdev_nr_blocks mem_small_block 0).2 (by decide)).2⟩⟩

theorem to_s64_lt (x : Nat) : to_s64 x < 2 ^ 63 := by
  unfold to_s64
  split <;> omega

theorem to_s64_of_lt (x : Nat) (h : x < 2 ^ 63) : to_s64 x = (x : Int) := by
  unfold to_s64
  have hx : x % 2 ^ 64 = x := Nat.mod_eq_of_lt (by omega)
  rw [hx, if_pos h]

theorem bdev_nr_bytes_of_lt (m : Kmem) (bdev : Nat) (h : bdev_nr_sectors m bdev < 2 ^ 54) :
    bdev_nr_bytes m bdev = 512 * (bdev_nr_sectors m bdev : Int) := by
  unfold bdev_nr_bytes c_shl_s64
  generalize bdev_nr_sectors m bdev = n at h ⊢
  rw [to_s64_of_lt n (by omega)]
  have h1 : ((n : Int) * 2 ^ SECTOR_SHIFT) % 2 ^ 64 = ((512 * n : Nat) : Int) := by
    simp only [SECTOR_SHIFT]
    omega
  rw [h1, Int.toNat_ofNat, to_s64_of_lt _ (by omega)]
  push_cast
  rfl

/-- C9: for a sector count n below 2^54, bdev_nr_bytes(bdev) is exactly 512 * n, a
non-negative value within signed 64-bit range; it is 0 iff n is 0 and strictly monotone in
n on that range; for n >= 2^54 the signed 64-bit result is not 512 * n. -/
theorem C9_bdev_nr_bytes (m : Kmem) (bdev : Nat) :
    (bdev_nr_sectors m bdev < 2 ^ 54 →
      bdev_nr_bytes m bdev = 512 * (bdev_nr_sectors m bdev : Int) ∧
      0 ≤ bdev_nr_bytes m bdev ∧ bdev_nr_bytes m bdev < 2 ^ 63 ∧
      (bdev_nr_bytes m bdev = 0 ↔ bdev_nr_sectors m bdev = 0) ∧
      (∀ other : Nat, bdev_nr_sectors m other < bdev_nr_sectors m bdev →
        bdev_nr_bytes m other < bdev_nr_bytes m bdev)) ∧
    (2 ^ 54 ≤ bdev_nr_sectors m bdev →
      bdev_nr_bytes m bdev ≠ 512 * (bdev_nr_sectors m bdev : Int)) := by
  refine ⟨?_, ?_⟩
  · intro h
    have he := bdev_nr_bytes_of_lt m bdev h
    refine ⟨he, by omega, by omega, by omega, ?_⟩
    intro other ho
    have he2 := bdev_nr_bytes_of_lt m other (by omega)
    omega
  · intro h
    have hlt : bdev_nr_bytes m bdev < 2 ^ 63 := to_s64_lt _
    omega

/-- C9 witness: 2048 sectors are 1048576 bytes; at 2^54 sectors the result differs
from 512 * n. -/
theorem C9_bdev_nr_bytes_witness :
    (bdev_nr_sectors mem_plain 0 < 2 ^ 54 ∧ bdev_nr_bytes mem_plain 0 = 512 * (2048 : Int)) ∧
    (2 ^ 54 ≤ bdev_nr_sectors mem_huge 0 ∧
      bdev_nr_bytes mem_huge 0 ≠ 512 * ((2 ^ 54 : Nat) : Int)) :=
  ⟨⟨by decide, ((C9_bdev_nr_bytes mem_plain 0).1 (by decide)).1⟩,
    ⟨by decide, (C9_bdev_nr_bytes mem_huge 0).2 (by decide)⟩⟩

/-! ### Capability flags -/

theorem and_two_pow_bne_zero (x b : Nat) : (x &&& 2 ^ b != 0) = Nat.testBit x b := by
  cases h : Nat.testBit x b
  · have h0 : x &&& 2 ^ b = 0 := by
      apply Nat.eq_of_testBit_eq
      intro i
      rw [Nat.testBit_and, Nat.testBit_two_pow, Nat.zero_testBit]
      by_cases hi : b = i
      · subst hi; simp [h]
      · simp [hi]
    simp [h0]
  · have h1 : Nat.testBit (x &&& 2 ^ b) b = true := by
      rw [Nat.testBit_and, h, Nat.testBit_two_pow_self]; rfl
    have h2 : x &&& 2 ^ b ≠ 0 := by
      intro h0
      rw [h0, Nat.zero_testBit] at h1
      exact Bool.noConfusion h1
    simp [h2]

theorem genhd_fl_test_shift (x b : Nat) : genhd_fl_test x (1 <<< b) = Nat.testBit x b := by
  unfold genhd_fl_test
  rw [Nat.shiftLeft_eq, Nat.one_mul, and_two_pow_bne_zero]

theorem genhd_fl_test_set_other (flags a b : Nat) (hb : b < 32) (hne : b ≠ a) :
    genhd_fl_test (genhd_fl_set flags (1 <<< a)) (1 <<< b) = genhd_fl_test flags (1 <<< b) := by
  rw [genhd_fl_test_shift, genhd_fl_test_shift, genhd_fl_set, testBit_set_of_ne 32 a b flags hb hne]

theorem genhd_fl_test_clear_other (flags a b : Nat) (ha : a < 32) (hb : b < 32) (hne : b ≠ a) :
    genhd_fl_test (genhd_fl_clear flags (1 <<< a)) (1 <<< b) = genhd_fl_test flags (1 <<< b) := by
  rw [genhd_fl_test_shift, genhd_fl_test_shift, genhd_fl_clear,
    testBit_clear_of_ne 32 a b flags hb ha hne]

/-- C10: the three capability flags are nonzero single-bit masks (bits 0, 1 and 2) that
are pairwise disjoint; on every flags word, setting or clearing one capability flag leaves
the test of each other capability flag unchanged; and the 8 subsets of capabilities give 8
distinct flags values, each subset being read back by the three tests. -/
theorem C10_capability_flags (flags fl other : Nat) (hfl : fl ∈ GENHD_FL_ALL)
    (hother : other ∈ GENHD_FL_ALL) (hne : other ≠ fl) :
    (GENHD_FL_REMOVABLE = 2 ^ 0 ∧ GENHD_FL_HIDDEN = 2 ^ 1 ∧ GENHD_FL_NO_PART = 2 ^ 2) ∧
    (∀ f ∈ GENHD_FL_ALL, f ≠ 0) ∧
    GENHD_FL_ALL.Pairwise (fun a b => a &&& b = 0) ∧
    genhd_fl_test (genhd_fl_set flags fl) other = genhd_fl_test flags other ∧
    genhd_fl_test (genhd_fl_clear flags fl) other = genhd_fl_test flags other ∧
    (∀ r h n r1 h1 n1 : Bool, genhd_fl_of r h n = genhd_fl_of r1 h1 n1 →
      r = r1 ∧ h = h1 ∧ n = n1) ∧
    (∀ r h n : Bool, genhd_fl_test (genhd_fl_of r h n) GENHD_FL_REMOVABLE = r ∧
      genhd_fl_test (genhd_fl_of r h n) GENHD_FL_HIDDEN = h ∧
      genhd_fl_test (genhd_fl_of r h n) GENHD_FL_NO_PART = n) := by
  refine ⟨by decide, by decide, by decide, ?_, ?_, by decide, by decide⟩
  · simp only [GENHD_FL_ALL, List.mem_cons, List.mem_singleton, List.not_mem_nil,
      or_false] at hfl hother
    rcases hfl with h | h | h <;> rcases hother with g | g | g <;> subst h <;> subst g
    · exact absurd rfl hne
    · exact genhd_fl_test_set_other flags 0 1 (by decide) (by decide)
    · exact genhd_fl_test_set_other flags 0 2 (by decide) (by decide)
    · exact genhd_fl_test_set_other flags 1 0 (by decide) (by decide)
    · exact absurd rfl hne
    · exact genhd_fl_test_set_other flags 1 2 (by decide) (by decide)
    · exact genhd_fl_test_set_other flags 2 0 (by decide) (by decide)
    · exact genhd_fl_test_set_other flags 2 1 (by decide) (by decide)
    · exact absurd rfl hne
  · simp only [GENHD_FL_ALL, List.mem_cons, List.mem_singleton, List.not_mem_nil,
      or_false] at hfl hother
    rcases hfl with h | h | h <;> rcases hother with g | g | g <;> subst h <;> subst g
    · exact absurd rfl hne
    · exact genhd_fl_test_clear_other flags 0 1 (by decide) (by decide) (by decide)
    · exact genhd_fl_test_clear_other flags 0 2 (by decide) (by decide) (by decide)
    · exact genhd_fl_test_clear_other flags 1 0 (by decide) (by decide) (by decide)
    · exact absurd rfl hne
    · exact genhd_fl_test_clear_other flags 1 2 (by decide) (by decide) (by decide)
    · exact genhd_fl_test_clear_other flags 2 0 (by decide) (by decide) (by decide)
    · exact genhd_fl_test_clear_other flags 2 1 (by decide) (by decide) (by decide)
    · exact absurd rfl hne

/-- C10 witness: hiding a removable disk keeps it removable, and un-hiding a disk with
all three capabilities keeps partition scanning disabled. -/
theorem C10_capability_flags_witness :
    GENHD_FL_HIDDEN ∈ GENHD_FL_ALL ∧ GENHD_FL_REMOVABLE ∈ GENHD_FL_ALL ∧
    GENHD_FL_REMOVABLE ≠ GENHD_FL_HIDDEN ∧
    genhd_fl_test (genhd_fl_set 1 GENHD_FL_HIDDEN) GENHD_FL_REMOVABLE = genhd_fl_test 1 GENHD_FL_REMOVABLE ∧
    genhd_fl_test (genhd_fl_clear 1 GENHD_FL_HIDDEN) GENHD_FL_REMOVABLE =
      genhd_fl_test 1 GENHD_FL_REMOVABLE :=
  ⟨by decide, by decide, by decide,
    (C10_capability_flags 1 GENHD_FL_HIDDEN GENHD_FL_REMOVABLE (by decide) (by decide)
      (by decide)).2.2.2.1,
    (C10_capability_flags 1 GENHD_FL_HIDDEN GENHD_FL_REMOVABLE (by decide) (by decide)
      (by decide)).2.2.2.2.1⟩

end Genhd
